import Mathlib

/-!
Verification of the Skrimish7x7 rules/combat engine.

The definitions below are a shallow embedding of the TypeScript sources:
`src/services/gameLogic.ts` (board geometry, movement and attack legality,
support lines, combat resolution), `src/services/aiLogic.ts` (computer
support placement), and the engine-relevant state transitions of
`src/App.tsx` (tile-click handling, multi-unit attack application, win
check, end-of-turn resets, and the per-action application loop of
`runComputerTurn`). JavaScript numbers are modelled as `Int`; presentation
fields (log strings, animation timers, icons) are omitted. Randomness
(`Math.random`) is modelled by an explicit choice parameter.
-/

namespace Skirmish

/-- Owning side ( `types.ts` `Player` ). -/
inductive Player where
  | player
  | computer
deriving DecidableEq, Repr

/-- Unit kind ( `types.ts` `UnitType` ). -/
inductive UnitType where
  | infantry
  | archer
  | cavalry
deriving DecidableEq, Repr

/-- Facing ( `types.ts` `Direction`, NORTH=0, EAST=1, SOUTH=2, WEST=3 ). -/
inductive Direction where
  | north
  | east
  | south
  | west
deriving DecidableEq, Repr

/-- Axis of a support line ( the `row` / `col` literal union in `types.ts` ). -/
inductive Axis where
  | row
  | col
deriving DecidableEq, Repr

/-- A unit on the board ( `types.ts` `Unit`; `Unit` is taken in Lean, hence
`GUnit` ). Ids are modelled as `Nat`. -/
structure GUnit where
  id : Nat
  type : UnitType
  player : Player
  x : Int
  y : Int
  rotation : Direction
  movesLeft : Int
  attacksLeft : Int
  hasRotated : Bool
  maxMoves : Int
  hp : Int
deriving DecidableEq, Repr

/-- A support line ( `types.ts` `SupportLine` ). The `player` field is an
`Option` because `getComputerSupportPlacement` in `src/services/aiLogic.ts`
builds its line objects without the `player` property and casts them with
`as SupportLine[]`; at runtime such an object has `player === undefined`,
modelled here as `none`. Lines built normally carry `some side`. -/
structure SupportLine where
  player : Option Player
  type : Axis
  index : Int
deriving DecidableEq, Repr

/-- Staged attack ( `types.ts` `PendingAttack` ). -/
structure PendingAttack where
  targetId : Nat
  attackerIds : List Nat
deriving DecidableEq, Repr

/-- Combat animation marker ( the `combatState` field of `GameState` ). -/
structure CombatState where
  attackerIds : List Nat
  defenderId : Nat
deriving DecidableEq, Repr

/-- Game phase ( the `turn` field's union type in `types.ts` ). -/
inductive Phase where
  | setup_placement
  | setup_support
  | player
  | computer
  | game_over
deriving DecidableEq, Repr

/-- The authoritative game state ( `types.ts` `GameState` ); `difficulty`
and `logs` are presentation-only and omitted. -/
structure GameState where
  gridSize : Int
  units : List GUnit
  playerSupport : List SupportLine
  computerSupport : List SupportLine
  turn : Phase
  winner : Option Player
  selectedUnitId : Option Nat
  combatState : Option CombatState
  pendingAttack : Option PendingAttack
  showComputerSupport : Bool
deriving DecidableEq, Repr

/-- Grid coordinate ( `types.ts` `Coordinate` ). -/
structure Coordinate where
  x : Int
  y : Int
deriving DecidableEq, Repr

/-- Kind of a planned computer action ( `types.ts` `AIAction.actionType` ). -/
inductive ActionKind where
  | move
  | rotate
  | attack
  | end_turn
deriving DecidableEq, Repr

/-- A planned computer action ( `types.ts` `AIAction` ). -/
structure AIAction where
  unitId : Nat
  actionType : ActionKind
  target : Option Coordinate
  direction : Option Direction
deriving DecidableEq, Repr

/-- Board side length ( `gameLogic.ts` `GRID_SIZE` ). -/
def GRID_SIZE : Int := 7

/-- Displacement vector of a facing ( `gameLogic.ts` `getVectorForRotation` ). -/
def getVectorForRotation : Direction → Int × Int
  | Direction.north => (0, -1)
  | Direction.south => (0, 1)
  | Direction.east => (1, 0)
  | Direction.west => (-1, 0)

/-- Flank bonus of an attacker against a defender
( `gameLogic.ts` `getFlankBonus` ). -/
def getFlankBonus (attacker defender : GUnit) : Int :=
  if attacker.type = UnitType.archer then 0
  else
    let dx := attacker.x - defender.x
    let dy := attacker.y - defender.y
    let f := getVectorForRotation defender.rotation
    if dx = f.1 ∧ dy = f.2 then 0 else 1

/-- Base strength of a unit including support bonuses
( `gameLogic.ts` `calculateBaseStrength` ). The two `if` statements of the
source's `forEach` body become a fold over the unit's own lines. -/
def calculateBaseStrength (unit : GUnit) (supportLines : List SupportLine) : Int :=
  let mySupports := supportLines.filter (fun sl => sl.player == some unit.player)
  mySupports.foldl (fun strength sl =>
    let afterRow := if sl.type = Axis.row ∧ sl.index = unit.y then strength + 1 else strength
    if sl.type = Axis.col ∧ sl.index = unit.x then afterRow + 1 else afterRow) 1

/-- Occupancy lookup ( `gameLogic.ts` `getUnitAt` ). -/
def getUnitAt (units : List GUnit) (x y : Int) : Option GUnit :=
  units.find? (fun u => u.x == x && u.y == y)

/-- Move legality ( `gameLogic.ts` `isValidMove` ). -/
def isValidMove (unit : GUnit) (targetX targetY : Int) (allUnits : List GUnit) : Bool :=
  if targetX < 1 ∨ targetX > GRID_SIZE ∨ targetY < 1 ∨ targetY > GRID_SIZE then false
  else if (getUnitAt allUnits targetX targetY).isSome then false
  else
    let dx := targetX - unit.x
    let dy := targetY - unit.y
    let absDist := |dx| + |dy|
    if absDist = 1 then true
    else if unit.type = UnitType.cavalry ∧ unit.movesLeft ≥ 2 ∧ absDist = 2 then
      let vec := getVectorForRotation unit.rotation
      if dx = vec.1 * 2 ∧ dy = vec.2 * 2 then
        (getUnitAt allUnits (unit.x + vec.1) (unit.y + vec.2)).isNone
      else false
    else false

/-- Rotation gating ( `gameLogic.ts` `canRotate` ). -/
def canRotate (unit : GUnit) : Bool :=
  decide (unit.movesLeft > 0)

/-- Attack legality ( `gameLogic.ts` `canAttack` ). -/
def canAttack (attacker defender : GUnit) (allUnits : List GUnit) : Bool :=
  if attacker.attacksLeft ≤ 0 then false
  else if attacker.player = defender.player then false
  else
    let dxRaw := defender.x - attacker.x
    let dyRaw := defender.y - attacker.y
    let facing := getVectorForRotation attacker.rotation
    let dotProduct := dxRaw * facing.1 + dyRaw * facing.2
    if dotProduct ≤ 0 then false
    else
      let dx := |dxRaw|
      let dy := |dyRaw|
      let dist := dx + dy
      if attacker.type = UnitType.archer then
        let isLinearGap := (dx = 2 ∧ dy = 0) ∨ (dx = 0 ∧ dy = 2)
        let isAdjacentToAnyEnemy := allUnits.any (fun e =>
          e.player != attacker.player &&
          |attacker.x - e.x| + |attacker.y - e.y| == 1)
        if isAdjacentToAnyEnemy then false
        else if (dx = 1 ∧ dy = 1) ∨ isLinearGap then
          if isLinearGap then
            (getUnitAt allUnits ((attacker.x + defender.x) / 2)
                                ((attacker.y + defender.y) / 2)).isNone
          else true
        else false
      else decide (dist = 1)

/-- Support placement legality ( `gameLogic.ts` `isValidSupportPlacement` ).
The source loop returns `false` on an exact axis+index duplicate and `true`
otherwise. -/
def isValidSupportPlacement (supports : List SupportLine) (newSupport : SupportLine) : Bool :=
  if supports.length ≥ 3 then false
  else supports.all (fun s => !(s.type == newSupport.type && s.index == newSupport.index))

/-- Outcome tag of a combat ( the `winner` field of `resolveCombat`'s
result in `gameLogic.ts` ). -/
inductive CombatWinner where
  | attacker
  | defender
  | tie
deriving DecidableEq, Repr

/-- Result of `resolveCombat` ( log string omitted ). -/
structure CombatResult where
  winner : CombatWinner
  atkTotal : Int
  defTotal : Int
deriving DecidableEq, Repr

/-- Strength contributed by one attacker inside `resolveCombat`
( `gameLogic.ts`, the body of the `attackers.forEach` loop ). -/
def attackerStrength (atk defender : GUnit) (attackerSupport : List SupportLine) : Int :=
  let base := calculateBaseStrength atk attackerSupport
  let flank := getFlankBonus atk defender
  let withFlank := if flank > 0 then base + flank else base
  if atk.type = UnitType.cavalry ∧ atk.movesLeft > 0 then withFlank + 1 else withFlank

/-- Combat resolution ( `gameLogic.ts` `resolveCombat` ). -/
def resolveCombat (attackers : List GUnit) (defender : GUnit)
    (attackerSupport defenderSupport : List SupportLine) : CombatResult :=
  let defTotal := calculateBaseStrength defender defenderSupport
  let atkTotal := attackers.foldl
    (fun acc atk => acc + attackerStrength atk defender attackerSupport) 0
  if defender.type = UnitType.archer ∧
      attackers.any (fun a => a.type != UnitType.archer) then
    { winner := CombatWinner.attacker, atkTotal := atkTotal, defTotal := 0 }
  else if atkTotal > defTotal then
    { winner := CombatWinner.attacker, atkTotal := atkTotal, defTotal := defTotal }
  else if defTotal > atkTotal then
    if attackers.any (fun a => a.type != UnitType.archer) then
      { winner := CombatWinner.defender, atkTotal := atkTotal, defTotal := defTotal }
    else
      { winner := CombatWinner.tie, atkTotal := atkTotal, defTotal := defTotal }
  else
    { winner := CombatWinner.tie, atkTotal := atkTotal, defTotal := defTotal }

/-- Facing chosen automatically when a unit moves ( the auto-rotate `if`
chain repeated verbatim in `App.tsx` `executeMove`, `runComputerTurn`'s
move branch, and `aiLogic.ts` `simulateMove` ). -/
def autoRotation (unit : GUnit) (tx ty : Int) : Direction :=
  if ty < unit.y then Direction.north
  else if tx > unit.x then Direction.east
  else if ty > unit.y then Direction.south
  else if tx < unit.x then Direction.west
  else unit.rotation

/-- Applying a player move ( `App.tsx` `executeMove` ). -/
def executeMove (s : GameState) (unit : GUnit) (x y cost : Int) : GameState :=
  { s with units := s.units.map (fun u =>
      if u.id == unit.id then
        { u with x := x, y := y, rotation := autoRotation unit x y,
                 movesLeft := u.movesLeft - cost, hasRotated := false }
      else u) }

/-- One tile click during the player's turn
( `App.tsx` `handleGameInteraction` ). -/
def handleGameInteraction (s : GameState) (x y : Int) : GameState :=
  let clickedUnit := getUnitAt s.units x y
  let selectedUnit := s.selectedUnitId.bind
    (fun sid => s.units.find? (fun u => u.id == sid))
  match clickedUnit with
  | some cu =>
    if cu.player = Player.computer then
      let selCanAttack :=
        match selectedUnit with
        | some su => canAttack su cu s.units
        | none => false
      let newAttackerIds : List Nat :=
        match selectedUnit with
        | some su => if canAttack su cu s.units then [su.id] else []
        | none => []
      if !selCanAttack && (match s.pendingAttack with
          | some pa => pa.targetId == cu.id
          | none => false) then s
      else
        match s.pendingAttack with
        | some pa =>
          if pa.targetId = cu.id then
            match selectedUnit with
            | some su =>
              if !(pa.attackerIds.contains su.id) && canAttack su cu s.units then
                { s with
                    pendingAttack := some { pa with attackerIds := pa.attackerIds ++ [su.id] } }
              else s
            | none => s
          else
            if newAttackerIds.length > 0 then
              { s with
                  pendingAttack := some { targetId := cu.id, attackerIds := newAttackerIds } }
            else s
        | none =>
          if newAttackerIds.length > 0 then
            { s with
                pendingAttack := some { targetId := cu.id, attackerIds := newAttackerIds } }
          else s
    else
      match s.pendingAttack with
      | some pa =>
        match s.units.find? (fun u => u.id == pa.targetId) with
        | some target =>
          if canAttack cu target s.units then
            if pa.attackerIds.contains cu.id then
              { s with
                  pendingAttack := some { pa with attackerIds := pa.attackerIds.filter (fun i => i != cu.id) },
                  selectedUnitId := some cu.id }
            else
              { s with
                  pendingAttack := some { pa with attackerIds := pa.attackerIds ++ [cu.id] },
                  selectedUnitId := some cu.id }
          else { s with selectedUnitId := some cu.id }
        | none => { s with selectedUnitId := some cu.id }
      | none => { s with selectedUnitId := some cu.id }
  | none =>
    match selectedUnit with
    | none => s
    | some sel =>
      if (match s.pendingAttack with
          | some pa => pa.attackerIds.contains sel.id
          | none => false) then s
      else if isValidMove sel x y s.units then
        let dist := |sel.x - x| + |sel.y - y|
        if sel.movesLeft ≥ dist then executeMove s sel x y dist else s
      else { s with selectedUnitId := none }

/-- One tile click during unit deployment
( `App.tsx` `handleSetupPlacement` ); the roster still to place and the id
for the freshly created unit are explicit arguments, and the placed-unit
roster after the click is returned alongside the state. -/
def handleSetupPlacement (s : GameState) (setupUnitsLeft : List UnitType)
    (x y : Int) (newId : Nat) : GameState × List UnitType :=
  match setupUnitsLeft with
  | [] => (s, [])
  | t :: rest =>
    if y < 6 ∨ x < 3 ∨ x > 5 then (s, setupUnitsLeft)
    else if (getUnitAt s.units x y).isSome then (s, setupUnitsLeft)
    else
      let newUnit : GUnit :=
        { id := newId, type := t, player := Player.player, x := x, y := y,
          rotation := Direction.north,
          movesLeft := if t = UnitType.cavalry then 2 else 1,
          attacksLeft := 1, hasRotated := false,
          maxMoves := if t = UnitType.cavalry then 2 else 1, hp := 1 }
      let s2 := { s with units := s.units ++ [newUnit] }
      let s3 := if setupUnitsLeft.length = 1 then { s2 with turn := Phase.setup_support } else s2
      (s3, rest)

/-- Top-level tile-click dispatch ( `App.tsx` `handleTileClick` ). The two
React flags guarding the handler (`isProcessingAI`, a non-null `aiPlan`)
are explicit Bool arguments. -/
def handleTileClick (s : GameState) (setupUnitsLeft : List UnitType)
    (isProcessingAI hasAiPlan : Bool) (x y : Int) (newId : Nat) :
    GameState × List UnitType :=
  if s.winner.isSome || isProcessingAI || hasAiPlan then (s, setupUnitsLeft)
  else if s.turn = Phase.setup_placement then
    handleSetupPlacement s setupUnitsLeft x y newId
  else if s.turn = Phase.player then
    (handleGameInteraction s x y, setupUnitsLeft)
  else (s, setupUnitsLeft)

/-- Win check after a player combat ( `App.tsx` `checkWinCondition` ). -/
def checkWinCondition (s : GameState) : GameState :=
  let playerUnits := s.units.filter (fun u => u.player == Player.player)
  let computerUnits := s.units.filter (fun u => u.player == Player.computer)
  if playerUnits.length = 0 then
    { s with winner := some Player.computer, turn := Phase.game_over }
  else if computerUnits.length = 0 then
    { s with winner := some Player.player, turn := Phase.game_over }
  else s

/-- Net state change of `App.tsx` `executeMultiAttack` before its deferred
win check: clear the pending attack, re-find the participants, resolve the
combat, spend the attackers' attack points and remove the losing side's
units. The animation `combatState` is set and cleared within the same
operation, so it ends `none`. -/
def executeMultiAttackResolve (s : GameState) (attackerIds : List Nat)
    (defenderId : Nat) : GameState :=
  let s0 := { s with pendingAttack := none }
  let curAttackers := s0.units.filter (fun u => attackerIds.contains u.id)
  match s0.units.find? (fun u => u.id == defenderId) with
  | none => { s0 with combatState := none }
  | some curDefender =>
    if curAttackers.isEmpty then { s0 with combatState := none }
    else
      let result := resolveCombat curAttackers curDefender s0.playerSupport s0.computerSupport
      let spent := s0.units.map (fun u =>
        if curAttackers.any (fun a => a.id == u.id) then
          { u with attacksLeft := 0, movesLeft := max 0 u.movesLeft }
        else u)
      let newUnits :=
        if result.winner = CombatWinner.attacker then
          spent.filter (fun u => u.id != curDefender.id)
        else if result.winner = CombatWinner.defender then
          spent.filter (fun u => !(curAttackers.map (fun a => a.id)).contains u.id)
        else spent
      { s0 with units := newUnits, selectedUnitId := none, combatState := none }

/-- A player-side multi-unit attack followed by the win check that
`executeMultiAttack` schedules ( `App.tsx` lines 358-403 ). -/
def playerMultiAttack (s : GameState) (attackerIds : List Nat)
    (defenderId : Nat) : GameState :=
  checkWinCondition (executeMultiAttackResolve s attackerIds defenderId)

/-- Ending the player's turn ( `App.tsx` `endPlayerTurn` ). -/
def endPlayerTurn (s : GameState) : GameState :=
  { s with
      units := s.units.map (fun u =>
        if u.player == Player.player then
          { u with movesLeft := u.maxMoves, attacksLeft := 1, hasRotated := false }
        else u),
      turn := Phase.computer, selectedUnitId := none,
      pendingAttack := none, combatState := none }

/-- End-of-computer-turn cleanup ( the tail of `App.tsx` `runComputerTurn` ):
reset the computer units' budgets, then run the inline win check. -/
def computerTurnCleanup (s : GameState) : GameState :=
  let resetUnits := s.units.map (fun u =>
    if u.player == Player.computer then
      { u with movesLeft := u.maxMoves, attacksLeft := 1, hasRotated := false }
    else u)
  let playerAlive := resetUnits.any (fun u => u.player == Player.player)
  let compAlive := resetUnits.any (fun u => u.player == Player.computer)
  let base := { s with units := resetUnits, turn := Phase.player,
                       winner := none, combatState := none }
  let afterPlayer :=
    if !playerAlive then
      { base with winner := some Player.computer, turn := Phase.game_over }
    else base
  if !compAlive then
    { afterPlayer with winner := some Player.player, turn := Phase.game_over }
  else afterPlayer

/-- Application of one planned computer action
( the loop body of `App.tsx` `runComputerTurn`, lines 454-543 ), stated
sequentially: the animation waits do not change the engine state, so the
attack branch's outer lookup and its inner re-lookup see the same units. -/
def applyAIAction (current : GameState) (action : AIAction) : GameState :=
  match action.actionType, action.target, action.direction with
  | ActionKind.move, some t, _ =>
    (match current.units.find? (fun u => u.id == action.unitId) with
     | none => current
     | some unit =>
       if (getUnitAt current.units t.x t.y).isSome then current
       else
         let dist := |unit.x - t.x| + |unit.y - t.y|
         { current with units := current.units.map (fun u =>
             if u.id == unit.id then
               { u with x := t.x, y := t.y, rotation := autoRotation unit t.x t.y,
                        movesLeft := max 0 (u.movesLeft - dist) }
             else u) })
  | ActionKind.rotate, _, some d =>
    (match current.units.find? (fun u => u.id == action.unitId) with
     | none => current
     | some unit =>
       { current with units := current.units.map (fun u =>
           if u.id == unit.id then { u with rotation := d } else u) })
  | ActionKind.attack, some t, _ =>
    (match current.units.find? (fun u => u.id == action.unitId),
           getUnitAt current.units t.x t.y with
     | some atk, some defUnit =>
       let res := resolveCombat [atk] defUnit current.computerSupport current.playerSupport
       let afterRemoval :=
         if res.winner = CombatWinner.attacker then
           current.units.filter (fun u => u.id != defUnit.id)
         else if res.winner = CombatWinner.defender then
           current.units.filter (fun u => u.id != atk.id)
         else current.units
       let newUnits :=
         if afterRemoval.any (fun u => u.id == atk.id) then
           afterRemoval.map (fun u =>
             if u.id == atk.id then { u with attacksLeft := 0 } else u)
         else afterRemoval
       { current with units := newUnits, combatState := none }
     | _, _ => current)
  | _, _, _ => current

/-- Computer support placement ( `src/services/aiLogic.ts`
`getComputerSupportPlacement` ): one of four fixed center layouts, chosen
by `Math.random`, modelled by an explicit choice parameter. The source
builds the line objects without a `player` property ( cast `as
SupportLine[]` ), so every line's `player` is `none` ( undefined ). -/
def getComputerSupportPlacement (choice : Nat) : List SupportLine :=
  let options : List (List SupportLine) :=
    [[⟨none, Axis.col, 3⟩, ⟨none, Axis.col, 4⟩, ⟨none, Axis.col, 5⟩],
     [⟨none, Axis.row, 3⟩, ⟨none, Axis.row, 4⟩, ⟨none, Axis.row, 5⟩],
     [⟨none, Axis.col, 4⟩, ⟨none, Axis.row, 3⟩, ⟨none, Axis.row, 5⟩],
     [⟨none, Axis.row, 4⟩, ⟨none, Axis.col, 3⟩, ⟨none, Axis.col, 5⟩]]
  options.getD (choice % 4) []

/-! Helper lemmas shared by several claim proofs. -/

/-- A left fold that only accumulates additions equals the starting value
plus the sum of the mapped list. -/
theorem foldl_add_sum (f : GUnit → Int) :
    ∀ (l : List GUnit) (a : Int),
      l.foldl (fun acc x => acc + f x) a = a + (l.map f).sum := by
  intro l
  induction l with
  | nil => intro a; simp
  | cons hd tl ih =>
    intro a
    simp only [List.foldl_cons, List.map_cons, List.sum_cons, ih]
    ring

/-- The strength fold of `calculateBaseStrength` counts the lines matching
the unit's row or column. -/
theorem strength_foldl_count (unit : GUnit) :
    ∀ (l : List SupportLine) (a : Int),
      (l.foldl (fun strength sl =>
        let afterRow := if sl.type = Axis.row ∧ sl.index = unit.y then strength + 1 else strength
        if sl.type = Axis.col ∧ sl.index = unit.x then afterRow + 1 else afterRow) a)
      = a + ((l.filter (fun sl => decide ((sl.type = Axis.row ∧ sl.index = unit.y) ∨
              (sl.type = Axis.col ∧ sl.index = unit.x)))).length : Int) := by
  intro l
  induction l with
  | nil => intro a; simp
  | cons hd tl ih =>
    intro a
    simp only [List.foldl_cons, List.filter_cons]
    rw [ih]
    by_cases hrow : hd.type = Axis.row ∧ hd.index = unit.y
    · have hcol : ¬(hd.type = Axis.col ∧ hd.index = unit.x) := by
        rintro ⟨h2, _⟩
        rw [hrow.1] at h2
        cases h2
      simp only [if_pos hrow, if_neg hcol, decide_eq_true_eq]
      rw [if_pos (Or.inl hrow)]
      simp only [List.length_cons]
      push_cast
      ring
    · by_cases hcol : hd.type = Axis.col ∧ hd.index = unit.x
      · simp only [if_neg hrow, if_pos hcol, decide_eq_true_eq]
        rw [if_pos (Or.inr hcol)]
        simp only [List.length_cons]
        push_cast
        ring
      · simp only [if_neg hrow, if_neg hcol, decide_eq_true_eq]
        rw [if_neg (by
          rintro (h | h)
          · exact hrow h
          · exact hcol h)]

/-- Per-attacker strength inside `resolveCombat`, restated as base strength
plus a flank term plus a charge term. -/
theorem attackerStrength_eq (a defender : GUnit) (asup : List SupportLine) :
    attackerStrength a defender asup =
      calculateBaseStrength a asup
      + (if (a.x - defender.x = (getVectorForRotation defender.rotation).1 ∧
             a.y - defender.y = (getVectorForRotation defender.rotation).2) ∨
            a.type = UnitType.archer then 0 else 1)
      + (if a.type = UnitType.cavalry ∧ 0 < a.movesLeft then 1 else 0) := by
  by_cases harch : a.type = UnitType.archer
  · have hcav : ¬(a.type = UnitType.cavalry ∧ 0 < a.movesLeft) := by
      rw [harch]
      rintro ⟨h, -⟩
      cases h
    simp [attackerStrength, getFlankBonus, harch, hcav]
  · by_cases hfront : a.x - defender.x = (getVectorForRotation defender.rotation).1 ∧
        a.y - defender.y = (getVectorForRotation defender.rotation).2
    · have hf : getFlankBonus a defender = 0 := by
        simp [getFlankBonus, harch, hfront.1, hfront.2]
      by_cases hcav : a.type = UnitType.cavalry ∧ 0 < a.movesLeft
      · simp [attackerStrength, hf, hcav, hfront]
      · simp [attackerStrength, hf, hcav, hfront]
    · have hf : getFlankBonus a defender = 1 := by
        simp only [getFlankBonus, if_neg harch]
        rw [if_neg hfront]
      have hterm : (if (a.x - defender.x = (getVectorForRotation defender.rotation).1 ∧
             a.y - defender.y = (getVectorForRotation defender.rotation).2) ∨
            a.type = UnitType.archer then (0 : Int) else 1) = 1 := by
        rw [if_neg]
        rintro (h | h)
        · exact hfront h
        · exact harch h
      rw [hterm]
      by_cases hcav : a.type = UnitType.cavalry ∧ 0 < a.movesLeft
      · simp only [attackerStrength, hf, if_pos hcav]
        norm_num
      · simp only [attackerStrength, hf, if_neg hcav]
        norm_num

/-- The `atkTotal` reported by `resolveCombat` is the attacker fold in
every branch. -/
theorem resolveCombat_atkTotal_def (attackers : List GUnit) (defender : GUnit)
    (asup dsup : List SupportLine) :
    (resolveCombat attackers defender asup dsup).atkTotal =
      attackers.foldl (fun acc atk => acc + attackerStrength atk defender asup) 0 := by
  dsimp only [resolveCombat]
  split_ifs <;> rfl

/-! Claim theorems. -/

/-- C4: the support lines built by `getComputerSupportPlacement` carry no
`player` field ( `undefined` after the unchecked cast ), so the ownership
filter of `calculateBaseStrength` never matches them and a computer unit
receives no support bonus from them, whichever of the four layouts is
chosen and wherever the unit stands. -/
theorem computerSupport_lines_lack_player (choice : Nat) (u : GUnit) :
    ((getComputerSupportPlacement choice).all (fun sl => sl.player == none) = true)
    ∧ calculateBaseStrength u (getComputerSupportPlacement choice) = 1 := by
  have h4 : choice % 4 = 0 ∨ choice % 4 = 1 ∨ choice % 4 = 2 ∨ choice % 4 = 3 := by omega
  rcases h4 with h | h | h | h <;>
    · unfold getComputerSupportPlacement
      rw [h]
      refine ⟨by decide, ?_⟩
      simp [calculateBaseStrength, List.filter_cons]

/-- C7: in `resolveCombat` the attacker total is the sum over attackers of
base strength plus a flank bonus ( 0 for a frontal attacker aligned with
the defender's facing vector or for an Archer, 1 otherwise ) plus a charge
bonus ( 1 exactly for a Cavalry attacker with `movesLeft > 0` at
resolution time, 0 otherwise ). -/
theorem resolveCombat_atkTotal_formula (attackers : List GUnit) (defender : GUnit)
    (asup dsup : List SupportLine) :
    (resolveCombat attackers defender asup dsup).atkTotal =
      (attackers.map (fun a =>
        calculateBaseStrength a asup
        + (if (a.x - defender.x = (getVectorForRotation defender.rotation).1 ∧
               a.y - defender.y = (getVectorForRotation defender.rotation).2) ∨
              a.type = UnitType.archer then 0 else 1)
        + (if a.type = UnitType.cavalry ∧ 0 < a.movesLeft then 1 else 0))).sum := by
  rw [resolveCombat_atkTotal_def, foldl_add_sum (fun a => attackerStrength a defender asup)]
  rw [zero_add]
  have hfun : (fun a => attackerStrength a defender asup) =
      (fun a : GUnit =>
        calculateBaseStrength a asup
        + (if (a.x - defender.x = (getVectorForRotation defender.rotation).1 ∧
               a.y - defender.y = (getVectorForRotation defender.rotation).2) ∨
              a.type = UnitType.archer then 0 else 1)
        + (if a.type = UnitType.cavalry ∧ 0 < a.movesLeft then 1 else 0)) :=
    funext (fun a => attackerStrength_eq a defender asup)
  rw [hfun]

/-- C8: `calculateBaseStrength` is 1 plus the number of support lines owned
by the unit's side whose axis and index match the unit's current row or
column; in particular a unit on the crossing of one own row line and one
own column line has strength exactly 3. -/
theorem calculateBaseStrength_formula (unit : GUnit) (supportLines : List SupportLine) :
    (calculateBaseStrength unit supportLines =
      1 + ((supportLines.filter (fun sl => decide (sl.player = some unit.player ∧
          ((sl.type = Axis.row ∧ sl.index = unit.y) ∨
           (sl.type = Axis.col ∧ sl.index = unit.x))))).length : Int))
    ∧ calculateBaseStrength unit
        [⟨some unit.player, Axis.row, unit.y⟩, ⟨some unit.player, Axis.col, unit.x⟩] = 3 := by
  constructor
  · simp only [calculateBaseStrength]
    rw [strength_foldl_count]
    rw [List.filter_filter]
    have hpred : (fun sl : SupportLine =>
        decide ((sl.type = Axis.row ∧ sl.index = unit.y) ∨
                (sl.type = Axis.col ∧ sl.index = unit.x)) &&
        (sl.player == some unit.player))
        = (fun sl : SupportLine => decide (sl.player = some unit.player ∧
            ((sl.type = Axis.row ∧ sl.index = unit.y) ∨
             (sl.type = Axis.col ∧ sl.index = unit.x)))) := by
      funext sl
      rw [Bool.eq_iff_iff]
      simp only [Bool.and_eq_true, decide_eq_true_eq, beq_iff_eq]
      tauto
    rw [hpred]
  · simp [calculateBaseStrength, List.filter_cons, List.foldl_cons]

/-- C9: `isValidSupportPlacement` rejects a candidate exactly when the side
already holds 3 or more lines or an existing line shares both axis and
index with the candidate; a candidate on an adjacent index of the same
axis is accepted. -/
theorem isValidSupportPlacement_characterization :
    (∀ (supports : List SupportLine) (newSupport : SupportLine),
       isValidSupportPlacement supports newSupport = true ↔
         (supports.length < 3 ∧
          ∀ s ∈ supports, ¬(s.type = newSupport.type ∧ s.index = newSupport.index)))
    ∧ (∀ (p q : Option Player) (ax : Axis) (i : Int),
         isValidSupportPlacement [⟨p, ax, i⟩] ⟨q, ax, i + 1⟩ = true) := by
  constructor
  · intro supports newSupport
    unfold isValidSupportPlacement
    by_cases hlen : supports.length ≥ 3
    · rw [if_pos hlen]
      simp only [Bool.false_eq_true, false_iff, not_and]
      intro hlt
      exact absurd hlt (by omega)
    · simp only [if_neg hlen, List.all_eq_true]
      constructor
      · intro h
        refine ⟨by omega, ?_⟩
        intro s hs hdup
        have := h s hs
        simp only [Bool.not_eq_true', Bool.and_eq_false_iff, beq_eq_false_iff_ne] at this
        rcases this with h1 | h1 <;> exact h1 (by simp [hdup.1, hdup.2])
      · rintro ⟨-, h⟩ s hs
        have := h s hs
        simp only [Bool.not_eq_true', Bool.and_eq_false_iff, beq_eq_false_iff_ne]
        by_cases ht : s.type = newSupport.type
        · right
          intro hi
          exact this ⟨ht, hi⟩
        · left
          exact ht
  · intro p q ax i
    simp only [isValidSupportPlacement]
    rw [if_neg (by simp)]
    simp only [List.all_cons, List.all_nil, Bool.and_true, Bool.not_eq_true',
      Bool.and_eq_false_iff, beq_eq_false_iff_ne]
    right
    omega

/-- A displacement equal to twice a facing vector has Manhattan length 2. -/
theorem charge_displacement_dist (d : Direction) (dx dy : Int)
    (h1 : dx = (getVectorForRotation d).1 * 2) (h2 : dy = (getVectorForRotation d).2 * 2) :
    |dx| + |dy| = 2 := by
  cases d <;> simp [getVectorForRotation] at h1 h2 <;> subst h1 <;> subst h2 <;> norm_num

/-- C6: `isValidMove` accepts exactly the in-bounds unoccupied targets at
Manhattan distance 1, plus the Cavalry charge: `movesLeft ≥ 2`, target
displaced by exactly twice the facing vector, intermediate tile empty. -/
theorem isValidMove_characterization (unit : GUnit) (tx ty : Int) (allUnits : List GUnit) :
    isValidMove unit tx ty allUnits = true ↔
      (1 ≤ tx ∧ tx ≤ GRID_SIZE ∧ 1 ≤ ty ∧ ty ≤ GRID_SIZE ∧
       getUnitAt allUnits tx ty = none ∧
       (|tx - unit.x| + |ty - unit.y| = 1 ∨
        (unit.type = UnitType.cavalry ∧ 2 ≤ unit.movesLeft ∧
         tx - unit.x = (getVectorForRotation unit.rotation).1 * 2 ∧
         ty - unit.y = (getVectorForRotation unit.rotation).2 * 2 ∧
         getUnitAt allUnits (unit.x + (getVectorForRotation unit.rotation).1)
                            (unit.y + (getVectorForRotation unit.rotation).2) = none))) := by
  dsimp only [isValidMove]
  split_ifs with h1 h2 h3 h4 h5
  · simp only [Bool.false_eq_true, false_iff]
    rintro ⟨a1, a2, a3, a4, -, -⟩
    omega
  · simp only [Bool.false_eq_true, false_iff]
    rintro ⟨-, -, -, -, hocc, -⟩
    rw [hocc] at h2
    cases h2
  · push_neg at h1
    rw [Option.not_isSome_iff_eq_none] at h2
    simp only [true_iff]
    exact ⟨by omega, by omega, by omega, by omega, h2, Or.inl h3⟩
  · push_neg at h1
    rw [Option.not_isSome_iff_eq_none] at h2
    rw [Option.isNone_iff_eq_none]
    constructor
    · intro hmid
      exact ⟨by omega, by omega, by omega, by omega, h2,
        Or.inr ⟨h4.1, h4.2.1, h5.1, h5.2, hmid⟩⟩
    · rintro ⟨-, -, -, -, -, hdisj⟩
      rcases hdisj with hd1 | hch
      · exact absurd hd1 h3
      · exact hch.2.2.2.2
  · simp only [Bool.false_eq_true, false_iff]
    rintro ⟨-, -, -, -, -, hdisj⟩
    rcases hdisj with hd1 | hch
    · exact absurd hd1 h3
    · exact h5 ⟨hch.2.2.1, hch.2.2.2.1⟩
  · simp only [Bool.false_eq_true, false_iff]
    rintro ⟨-, -, -, -, -, hdisj⟩
    rcases hdisj with hd1 | hch
    · exact absurd hd1 h3
    · exact h4 ⟨hch.1, hch.2.1,
        charge_displacement_dist unit.rotation _ _ hch.2.2.1 hch.2.2.2.1⟩

/-- C5: `canAttack` fails whenever `attacksLeft ≤ 0`, the units share a
side, or the dot product of the displacement to the defender with the
attacker's facing vector is not strictly positive; under those gates a
non-Archer attacks exactly at Manhattan distance 1, and an Archer exactly
at diagonal adjacency or at a straight 2-tile gap with an empty
intervening tile, and never while any enemy is at Manhattan distance 1
from it. -/
theorem canAttack_characterization (attacker defender : GUnit) (allUnits : List GUnit) :
    canAttack attacker defender allUnits = true ↔
      (0 < attacker.attacksLeft ∧ attacker.player ≠ defender.player ∧
       0 < (defender.x - attacker.x) * (getVectorForRotation attacker.rotation).1
           + (defender.y - attacker.y) * (getVectorForRotation attacker.rotation).2 ∧
       ((attacker.type ≠ UnitType.archer ∧
         |defender.x - attacker.x| + |defender.y - attacker.y| = 1) ∨
        (attacker.type = UnitType.archer ∧
         (∀ e ∈ allUnits, e.player = attacker.player ∨
            |attacker.x - e.x| + |attacker.y - e.y| ≠ 1) ∧
         ((|defender.x - attacker.x| = 1 ∧ |defender.y - attacker.y| = 1) ∨
          (((|defender.x - attacker.x| = 2 ∧ |defender.y - attacker.y| = 0) ∨
            (|defender.x - attacker.x| = 0 ∧ |defender.y - attacker.y| = 2)) ∧
           getUnitAt allUnits ((attacker.x + defender.x) / 2)
                              ((attacker.y + defender.y) / 2) = none))))) := by
  have hany : (allUnits.any (fun e =>
        e.player != attacker.player &&
        |attacker.x - e.x| + |attacker.y - e.y| == 1)) = false ↔
      (∀ e ∈ allUnits, e.player = attacker.player ∨
          |attacker.x - e.x| + |attacker.y - e.y| ≠ 1) := by
    rw [← Bool.not_eq_true, List.any_eq_true]
    simp only [Bool.and_eq_true, bne_iff_ne, beq_iff_eq, not_exists, not_and]
    constructor
    · intro h e he
      by_cases hp : e.player = attacker.player
      · exact Or.inl hp
      · exact Or.inr (h e he hp)
    · intro h e he hp
      rcases h e he with h1 | h1
      · exact absurd h1 hp
      · exact h1
  dsimp only [canAttack]
  split_ifs with h1 h2 h3 h4 h5 h6 h7
  · simp only [Bool.false_eq_true, false_iff]
    rintro ⟨hal, -, -, -⟩
    omega
  · simp only [Bool.false_eq_true, false_iff]
    rintro ⟨-, hpl, -, -⟩
    exact hpl h2
  · simp only [Bool.false_eq_true, false_iff]
    rintro ⟨-, -, hdot, -⟩
    omega
  · simp only [Bool.false_eq_true, false_iff]
    rintro ⟨-, -, -, hdisj⟩
    rcases hdisj with hm | ha
    · exact hm.1 h4
    · have := hany.mpr ha.2.1
      rw [h5] at this
      cases this
  · rw [Option.isNone_iff_eq_none]
    push_neg at h1 h3
    rw [Bool.not_eq_true] at h5
    constructor
    · intro hmid
      exact ⟨by omega, h2, by omega, Or.inr ⟨h4, hany.mp h5, Or.inr ⟨h7, hmid⟩⟩⟩
    · rintro ⟨-, -, -, hdisj⟩
      rcases hdisj with hm | ha
      · exact absurd h4 hm.1
      · rcases ha.2.2 with hdiag | hgap
        · rcases h7 with ⟨hx, hy⟩ | ⟨hx, hy⟩ <;> omega
        · exact hgap.2
  · push_neg at h1 h3
    rw [Bool.not_eq_true] at h5
    simp only [true_iff]
    have hdiag : |defender.x - attacker.x| = 1 ∧ |defender.y - attacker.y| = 1 := by
      rcases h6 with hd | hg
      · exact hd
      · exact absurd hg h7
    exact ⟨by omega, h2, by omega, Or.inr ⟨h4, hany.mp h5, Or.inl hdiag⟩⟩
  · simp only [Bool.false_eq_true, false_iff]
    rintro ⟨-, -, -, hdisj⟩
    rcases hdisj with hm | ha
    · exact absurd h4 hm.1
    · rcases ha.2.2 with hdiag | hgap
      · exact h6 (Or.inl hdiag)
      · exact h6 (Or.inr hgap.1)
  · push_neg at h1 h3
    rw [decide_eq_true_eq]
    constructor
    · intro hdist
      exact ⟨by omega, h2, by omega, Or.inl ⟨h4, hdist⟩⟩
    · rintro ⟨-, -, -, hdisj⟩
      rcases hdisj with hm | ha
      · exact hm.2
      · exact absurd ha.1 h4

/-- Mapping a unit transformer that preserves a projection leaves the
projected list unchanged. -/
theorem map_comp_congr {β : Type} (f : GUnit → GUnit) (g : GUnit → β)
    (h : ∀ u, g (f u) = g u) :
    ∀ l : List GUnit, (l.map f).map g = l.map g := by
  intro l
  induction l with
  | nil => rfl
  | cons hd tl ih => simp only [List.map_cons, h, ih]

/-- C2: in `resolveCombat`, an Archer defender facing a group with a
non-Archer member loses automatically with `defTotal` reported 0;
otherwise higher attacker total wins, higher defender total repels a
group containing a non-Archer and merely fails against an all-Archer
group, and equal totals are a stalemate; and `executeMultiAttack` removes
the defender exactly on an attacker win, all the attacking group on a
defender win, and nobody on a tie. -/
theorem resolveCombat_outcome_correct (attackers : List GUnit) (defender : GUnit)
    (asup dsup : List SupportLine) (s : GameState) (attackerIds : List Nat)
    (defenderId : Nat) :
    (((defender.type = UnitType.archer ∧ ∃ a ∈ attackers, a.type ≠ UnitType.archer) →
        (resolveCombat attackers defender asup dsup).winner = CombatWinner.attacker ∧
        (resolveCombat attackers defender asup dsup).defTotal = 0)
     ∧ (¬(defender.type = UnitType.archer ∧ ∃ a ∈ attackers, a.type ≠ UnitType.archer) →
        (((resolveCombat attackers defender asup dsup).atkTotal >
            (resolveCombat attackers defender asup dsup).defTotal →
          (resolveCombat attackers defender asup dsup).winner = CombatWinner.attacker)
         ∧ ((resolveCombat attackers defender asup dsup).defTotal >
              (resolveCombat attackers defender asup dsup).atkTotal →
            (∃ a ∈ attackers, a.type ≠ UnitType.archer) →
            (resolveCombat attackers defender asup dsup).winner = CombatWinner.defender)
         ∧ ((resolveCombat attackers defender asup dsup).defTotal >
              (resolveCombat attackers defender asup dsup).atkTotal →
            (∀ a ∈ attackers, a.type = UnitType.archer) →
            (resolveCombat attackers defender asup dsup).winner = CombatWinner.tie)
         ∧ ((resolveCombat attackers defender asup dsup).atkTotal =
              (resolveCombat attackers defender asup dsup).defTotal →
            (resolveCombat attackers defender asup dsup).winner = CombatWinner.tie))))
    ∧ (∀ d0 : GUnit, s.units.find? (fun u => u.id == defenderId) = some d0 →
        (s.units.filter (fun u => attackerIds.contains u.id)).isEmpty = false →
        (((resolveCombat (s.units.filter (fun u => attackerIds.contains u.id)) d0
             s.playerSupport s.computerSupport).winner = CombatWinner.attacker →
           ∀ u ∈ (executeMultiAttackResolve s attackerIds defenderId).units, u.id ≠ d0.id)
         ∧ ((resolveCombat (s.units.filter (fun u => attackerIds.contains u.id)) d0
             s.playerSupport s.computerSupport).winner = CombatWinner.defender →
           ∀ u ∈ (executeMultiAttackResolve s attackerIds defenderId).units,
             attackerIds.contains u.id = false)
         ∧ ((resolveCombat (s.units.filter (fun u => attackerIds.contains u.id)) d0
             s.playerSupport s.computerSupport).winner = CombatWinner.tie →
           (executeMultiAttackResolve s attackerIds defenderId).units.map (fun u => u.id) =
             s.units.map (fun u => u.id)))) := by
  have hexany : (attackers.any (fun a => a.type != UnitType.archer)) = true ↔
      (∃ a ∈ attackers, a.type ≠ UnitType.archer) := by
    rw [List.any_eq_true]
    simp [bne_iff_ne]
  constructor
  · constructor
    · rintro ⟨hdef, hex⟩
      have hcond : defender.type = UnitType.archer ∧
          (attackers.any (fun a => a.type != UnitType.archer)) = true :=
        ⟨hdef, hexany.mpr hex⟩
      dsimp only [resolveCombat]
      rw [if_pos hcond]
      exact ⟨rfl, rfl⟩
    · intro hnspec
      have hcond : ¬(defender.type = UnitType.archer ∧
          (attackers.any (fun a => a.type != UnitType.archer)) = true) := by
        intro h
        exact hnspec ⟨h.1, hexany.mp h.2⟩
      have hr : resolveCombat attackers defender asup dsup =
          { winner :=
              if attackers.foldl (fun acc atk => acc + attackerStrength atk defender asup) 0 >
                  calculateBaseStrength defender dsup then CombatWinner.attacker
              else if calculateBaseStrength defender dsup >
                  attackers.foldl (fun acc atk => acc + attackerStrength atk defender asup) 0 then
                (if (attackers.any (fun a => a.type != UnitType.archer)) = true then
                  CombatWinner.defender
                 else CombatWinner.tie)
              else CombatWinner.tie,
            atkTotal := attackers.foldl (fun acc atk => acc + attackerStrength atk defender asup) 0,
            defTotal := calculateBaseStrength defender dsup } := by
        dsimp only [resolveCombat]
        rw [if_neg hcond]
        split_ifs <;> rfl
      rw [hr]
      refine ⟨?_, ?_, ?_, ?_⟩
      · intro h
        have h2 : attackers.foldl (fun acc atk => acc + attackerStrength atk defender asup) 0 >
            calculateBaseStrength defender dsup := h
        rw [if_pos h2]
      · intro h hex
        have h2 : calculateBaseStrength defender dsup >
            attackers.foldl (fun acc atk => acc + attackerStrength atk defender asup) 0 := h
        rw [if_neg (by omega), if_pos h2, if_pos (hexany.mpr hex)]
      · intro h hall
        have h2 : calculateBaseStrength defender dsup >
            attackers.foldl (fun acc atk => acc + attackerStrength atk defender asup) 0 := h
        have hnx : ¬((attackers.any (fun a => a.type != UnitType.archer)) = true) := by
          intro hx
          rcases hexany.mp hx with ⟨a, ha, hna⟩
          exact hna (hall a ha)
        rw [if_neg (by omega), if_pos h2, if_neg hnx]
      · intro h
        have h2 : attackers.foldl (fun acc atk => acc + attackerStrength atk defender asup) 0 =
            calculateBaseStrength defender dsup := h
        rw [if_neg (by omega), if_neg (by omega)]
  · intro d0 hfind hne
    dsimp only [executeMultiAttackResolve]
    rw [hfind]
    dsimp only
    rw [if_neg (by rw [hne]; exact Bool.false_ne_true)]
    refine ⟨?_, ?_, ?_⟩
    · intro hw u hu
      rw [if_pos hw] at hu
      rcases List.mem_filter.mp hu with ⟨-, hpred⟩
      exact bne_iff_ne.mp hpred
    · intro hw u hu
      rw [hw] at hu
      rw [if_neg (by simp), if_pos rfl] at hu
      rcases List.mem_filter.mp hu with ⟨humem, hpred⟩
      rw [Bool.not_eq_true'] at hpred
      by_contra hc
      rw [Bool.not_eq_false] at hc
      rcases List.mem_map.mp humem with ⟨u0, hu0mem, hfu⟩
      have hid : u.id = u0.id := by
        rw [← hfu]
        by_cases hcu : ((s.units.filter (fun u => attackerIds.contains u.id)).any
            (fun a => a.id == u0.id)) = true
        · rw [if_pos hcu]
        · rw [if_neg hcu]
      have hu0cur : u0 ∈ s.units.filter (fun u => attackerIds.contains u.id) :=
        List.mem_filter.mpr ⟨hu0mem, by rw [← hid]; exact hc⟩
      have hin : ((s.units.filter (fun u => attackerIds.contains u.id)).map
          (fun a => a.id)).contains u.id = true := by
        rw [hid]
        exact List.elem_iff.mpr (List.mem_map.mpr ⟨u0, hu0cur, rfl⟩)
      rw [hin] at hpred
      cases hpred
    · intro hw
      rw [hw]
      rw [if_neg (by simp), if_neg (by simp)]
      rw [List.map_map]
      apply List.map_congr_left
      intro u hu
      simp only [Function.comp_apply]
      by_cases hcu : ((s.units.filter (fun u => attackerIds.contains u.id)).any
          (fun a => a.id == u.id)) = true
      · rw [if_pos hcu]
      · rw [if_neg hcu]

/-- Computer Infantry with all budget spent, used as concrete input. -/
def spentComputerUnit : GUnit :=
  { id := 21, type := UnitType.cavalry, player := Player.computer, x := 4, y := 2,
    rotation := Direction.south, movesLeft := 0, attacksLeft := 0, hasRotated := true,
    maxMoves := 2, hp := 1 }

/-- Player Infantry with all budget spent, used as concrete input. -/
def spentPlayerUnit : GUnit :=
  { id := 22, type := UnitType.infantry, player := Player.player, x := 4, y := 6,
    rotation := Direction.north, movesLeft := 0, attacksLeft := 0, hasRotated := true,
    maxMoves := 1, hp := 1 }

/-- A mid-game state in which both sides have exhausted their budgets. -/
def spentState : GameState :=
  { gridSize := 7, units := [spentPlayerUnit, spentComputerUnit],
    playerSupport := [], computerSupport := [], turn := Phase.player,
    winner := none, selectedUnitId := none, combatState := none,
    pendingAttack := none, showComputerSupport := false }

/-- C3 counterexample: on `spentState`, `endPlayerTurn` does not reset the
computer's ( the side about to act ) `movesLeft` to `maxMoves`, and it does
not leave the ending player's budgets unchanged: exactly the opposite of
the claim. -/
theorem endPlayerTurn_resets_ending_side_cex :
    ¬ (∀ u ∈ (endPlayerTurn spentState).units,
        (u.player = Player.computer → u.movesLeft = u.maxMoves ∧ u.attacksLeft = 1) ∧
        (u.player = Player.player → u.movesLeft = 0 ∧ u.attacksLeft = 0)) := by
  decide

/-- C3 amended: each end-turn operation resets the ENDING side's units to
`movesLeft = maxMoves`, `attacksLeft = 1`, leaves the opposite side's
budgets unchanged, clears any pending attack ( on the player path ), and
flips the active side: the budget refresh happens at the end of a side's
own turn, not at the start. -/
theorem endTurn_budget_reset (s : GameState) :
    (endPlayerTurn s).turn = Phase.computer
    ∧ (endPlayerTurn s).pendingAttack = none
    ∧ (∀ u ∈ (endPlayerTurn s).units, u.player = Player.player →
         u.movesLeft = u.maxMoves ∧ u.attacksLeft = 1)
    ∧ ((endPlayerTurn s).units.map (fun u =>
          if u.player == Player.computer then (u.movesLeft, u.attacksLeft)
          else ((0 : Int), (0 : Int))) =
       s.units.map (fun u =>
          if u.player == Player.computer then (u.movesLeft, u.attacksLeft)
          else ((0 : Int), (0 : Int))))
    ∧ (∀ u ∈ (computerTurnCleanup s).units, u.player = Player.computer →
         u.movesLeft = u.maxMoves ∧ u.attacksLeft = 1)
    ∧ ((computerTurnCleanup s).units.map (fun u =>
          if u.player == Player.player then (u.movesLeft, u.attacksLeft)
          else ((0 : Int), (0 : Int))) =
       s.units.map (fun u =>
          if u.player == Player.player then (u.movesLeft, u.attacksLeft)
          else ((0 : Int), (0 : Int)))) := by
  have hclean : (computerTurnCleanup s).units = s.units.map (fun u =>
      if u.player == Player.computer then
        { u with movesLeft := u.maxMoves, attacksLeft := 1, hasRotated := false }
      else u) := by
    dsimp only [computerTurnCleanup]
    split_ifs <;> rfl
  refine ⟨rfl, rfl, ?_, ?_, ?_, ?_⟩
  · intro u hu hup
    dsimp only [endPlayerTurn] at hu
    rcases List.mem_map.mp hu with ⟨u0, -, hfu⟩
    by_cases hp : u0.player = Player.player
    · rw [← hfu]
      simp [hp]
    · rw [← hfu] at hup ⊢
      simp only [hp, beq_iff_eq, if_neg hp] at hup ⊢
      exact absurd hup hp
  · dsimp only [endPlayerTurn]
    apply map_comp_congr
    intro u
    by_cases hp : u.player = Player.player
    · have : ¬(u.player = Player.computer) := by rw [hp]; intro h; cases h
      simp [hp, this]
    · simp [hp]
  · intro u hu hup
    rw [hclean] at hu
    rcases List.mem_map.mp hu with ⟨u0, -, hfu⟩
    by_cases hp : u0.player = Player.computer
    · rw [← hfu]
      simp [hp]
    · rw [← hfu] at hup ⊢
      simp only [hp, beq_iff_eq, if_neg hp] at hup ⊢
      exact absurd hup hp
  · rw [hclean]
    apply map_comp_congr
    intro u
    by_cases hp : u.player = Player.computer
    · have : ¬(u.player = Player.player) := by rw [hp]; intro h; cases h
      simp [hp, this]
    · simp [hp]

/-- Computer Infantry far from its move target, used as concrete input. -/
def strayUnit : GUnit :=
  { id := 31, type := UnitType.infantry, player := Player.computer, x := 1, y := 1,
    rotation := Direction.south, movesLeft := 1, attacksLeft := 1, hasRotated := false,
    maxMoves := 1, hp := 1 }

/-- A computer-turn state holding only `strayUnit`. -/
def strayState : GameState :=
  { gridSize := 7, units := [strayUnit], playerSupport := [], computerSupport := [],
    turn := Phase.computer, winner := none, selectedUnitId := none, combatState := none,
    pendingAttack := none, showComputerSupport := false }

/-- A planned move of `strayUnit` to the far tile (4,4): Manhattan distance
6, illegal under `isValidMove`. -/
def strayMove : AIAction :=
  { unitId := 31, actionType := ActionKind.move, target := some ⟨4, 4⟩, direction := none }

/-- C1 counterexample: the per-action application of `runComputerTurn`
applies a planned move that `isValidMove` rejects ( distance 6 ), and the
GameState changes, so planned actions are not re-validated against the
legality rules before being applied. -/
theorem runComputerTurn_applies_invalid_move :
    isValidMove strayUnit 4 4 strayState.units = false ∧
    applyAIAction strayState strayMove ≠ strayState := by
  decide

/-- Computer unit with its movement budget exhausted, so `canRotate` is
false for it. -/
def exhaustedRotUnit : GUnit :=
  { id := 41, type := UnitType.infantry, player := Player.computer, x := 2, y := 2,
    rotation := Direction.north, movesLeft := 0, attacksLeft := 1, hasRotated := false,
    maxMoves := 1, hp := 1 }

/-- A computer-turn state holding only `exhaustedRotUnit`. -/
def exhaustedRotState : GameState :=
  { gridSize := 7, units := [exhaustedRotUnit], playerSupport := [], computerSupport := [],
    turn := Phase.computer, winner := none, selectedUnitId := none, combatState := none,
    pendingAttack := none, showComputerSupport := false }

/-- A planned rotate of `exhaustedRotUnit`, illegal under `canRotate`. -/
def illegalRotate : AIAction :=
  { unitId := 41, actionType := ActionKind.rotate, target := none,
    direction := some Direction.east }

/-- Computer unit with its attack budget exhausted, so `canAttack` is false
for it against every target. -/
def spentAttackUnit : GUnit :=
  { id := 42, type := UnitType.infantry, player := Player.computer, x := 1, y := 1,
    rotation := Direction.south, movesLeft := 1, attacksLeft := 0, hasRotated := false,
    maxMoves := 1, hp := 1 }

/-- Player Archer adjacent to `spentAttackUnit`. -/
def archerTargetUnit : GUnit :=
  { id := 43, type := UnitType.archer, player := Player.player, x := 1, y := 2,
    rotation := Direction.north, movesLeft := 1, attacksLeft := 1, hasRotated := false,
    maxMoves := 1, hp := 1 }

/-- A computer-turn state holding `spentAttackUnit` and `archerTargetUnit`. -/
def spentAttackState : GameState :=
  { gridSize := 7, units := [spentAttackUnit, archerTargetUnit],
    playerSupport := [], computerSupport := [], turn := Phase.computer,
    winner := none, selectedUnitId := none, combatState := none,
    pendingAttack := none, showComputerSupport := false }

/-- A planned attack by `spentAttackUnit` on `archerTargetUnit`, illegal
under `canAttack` since `attacksLeft = 0`. -/
def illegalAttack : AIAction :=
  { unitId := 42, actionType := ActionKind.attack, target := some ⟨1, 2⟩,
    direction := none }

/-- C1 amended: the per-action application of `runComputerTurn` checks each
planned action only for existence and occupancy, never against
`isValidMove`, `canRotate` or `canAttack`. Drop direction: an action whose
acting unit no longer exists, a move whose target tile is occupied, and an
attack with no unit on the target tile are silently dropped, leaving the
GameState unchanged, and processing continues with the next action. Apply
direction: whenever the acting unit exists, a move to any free tile is
applied with `movesLeft` clamped at 0, a rotate is always applied, and an
attack against any unit on the target tile is resolved — the legality
hypotheses appear nowhere, and the concrete conjuncts exhibit a
`canRotate`-illegal rotate applied, a `canAttack`-illegal attack resolved
( removing the defender ), and an `isValidMove`-illegal distance-6 move
applied with `movesLeft` clamped from 1 to 0. -/
theorem applyAIAction_minimal_checks (s : GameState) (a : AIAction) :
    (s.units.find? (fun u => u.id == a.unitId) = none → applyAIAction s a = s)
    ∧ (∀ t : Coordinate, a.actionType = ActionKind.move → a.target = some t →
        (getUnitAt s.units t.x t.y).isSome = true → applyAIAction s a = s)
    ∧ (∀ t : Coordinate, a.actionType = ActionKind.attack → a.target = some t →
        getUnitAt s.units t.x t.y = none → applyAIAction s a = s)
    ∧ (∀ t : Coordinate, ∀ u0 : GUnit, a.actionType = ActionKind.move →
        a.target = some t →
        s.units.find? (fun u => u.id == a.unitId) = some u0 →
        getUnitAt s.units t.x t.y = none →
        applyAIAction s a = { s with units := s.units.map (fun u =>
          if u.id == u0.id then
            { u with x := t.x, y := t.y, rotation := autoRotation u0 t.x t.y,
                     movesLeft := max 0 (u.movesLeft - (|u0.x - t.x| + |u0.y - t.y|)) }
          else u) })
    ∧ (∀ d : Direction, ∀ u0 : GUnit, a.actionType = ActionKind.rotate →
        a.direction = some d →
        s.units.find? (fun u => u.id == a.unitId) = some u0 →
        applyAIAction s a = { s with units := s.units.map (fun u =>
          if u.id == u0.id then { u with rotation := d } else u) })
    ∧ (∀ t : Coordinate, ∀ atk defUnit : GUnit, a.actionType = ActionKind.attack →
        a.target = some t →
        s.units.find? (fun u => u.id == a.unitId) = some atk →
        getUnitAt s.units t.x t.y = some defUnit →
        (resolveCombat [atk] defUnit s.computerSupport s.playerSupport).winner =
          CombatWinner.attacker →
        ∀ u ∈ (applyAIAction s a).units, u.id ≠ defUnit.id)
    ∧ (canRotate exhaustedRotUnit = false ∧
       (applyAIAction exhaustedRotState illegalRotate).units.map (fun u => u.rotation) =
         [Direction.east])
    ∧ (canAttack spentAttackUnit archerTargetUnit spentAttackState.units = false ∧
       (applyAIAction spentAttackState illegalAttack).units.map (fun u => u.id) = [42])
    ∧ (isValidMove strayUnit 4 4 strayState.units = false ∧
       (applyAIAction strayState strayMove).units.map (fun u => (u.x, u.y, u.movesLeft)) =
         [(4, 4, 0)]) := by
  rcases a with ⟨uid, kind, tgt, dir⟩
  refine ⟨?_, ?_, ?_, ?_, ?_, ?_, by decide, by decide, by decide⟩
  · intro h
    cases kind with
    | move =>
      cases tgt with
      | none => rfl
      | some t =>
        dsimp only [applyAIAction]
        rw [h]
    | rotate =>
      cases dir with
      | none => rfl
      | some d =>
        dsimp only [applyAIAction]
        rw [h]
    | attack =>
      cases tgt with
      | none => rfl
      | some t =>
        dsimp only [applyAIAction]
        rw [h]
    | end_turn => rfl
  · intro t hk ht hocc
    subst hk
    subst ht
    dsimp only [applyAIAction]
    cases hf : s.units.find? (fun u => u.id == uid) with
    | none => rfl
    | some u0 => simp [hocc]
  · intro t hk ht hocc
    subst hk
    subst ht
    dsimp only [applyAIAction]
    cases hf : s.units.find? (fun u => u.id == uid) with
    | none => rfl
    | some u0 => rw [hocc]
  · intro t u0 hk ht hfind hfree
    subst hk
    subst ht
    dsimp only [applyAIAction]
    rw [hfind]
    dsimp only
    rw [if_neg (by rw [hfree]; simp)]
  · intro d u0 hk hd hfind
    subst hk
    subst hd
    dsimp only [applyAIAction]
    rw [hfind]
  · intro t atk defUnit hk ht hfind hdef hw u hu
    subst hk
    subst ht
    dsimp only [applyAIAction] at hu
    rw [hfind, hdef] at hu
    dsimp only at hu
    rw [if_pos hw] at hu
    by_cases hany : ((s.units.filter (fun u => u.id != defUnit.id)).any
        (fun u => u.id == atk.id)) = true
    · rw [if_pos hany] at hu
      rcases List.mem_map.mp hu with ⟨v, hv, hgv⟩
      have hvid : v.id ≠ defUnit.id := bne_iff_ne.mp (List.mem_filter.mp hv).2
      have huv : u.id = v.id := by
        rw [← hgv]
        by_cases hc : (v.id == atk.id) = true
        · rw [if_pos hc]
        · rw [if_neg hc]
      rw [huv]
      exact hvid
    · rw [if_neg hany] at hu
      exact bne_iff_ne.mp (List.mem_filter.mp hu).2

/-- C10: after a player multi-unit attack the scheduled win check sends the
game to `game_over` with the opposing side as winner whenever one side's
live-unit count is 0, and once a winner is set every further tile click
( the entry point of all player move and attack operations ) is rejected
and leaves the GameState unchanged. -/
theorem gameOver_terminal (s : GameState) (attackerIds : List Nat) (defenderId : Nat)
    (setupUnitsLeft : List UnitType) (isProcessingAI hasAiPlan : Bool)
    (x y : Int) (newId : Nat) :
    (((playerMultiAttack s attackerIds defenderId).units.filter
        (fun u => u.player == Player.player)).length = 0 →
      (playerMultiAttack s attackerIds defenderId).turn = Phase.game_over ∧
      (playerMultiAttack s attackerIds defenderId).winner = some Player.computer)
    ∧ (((playerMultiAttack s attackerIds defenderId).units.filter
          (fun u => u.player == Player.player)).length ≠ 0 →
       ((playerMultiAttack s attackerIds defenderId).units.filter
          (fun u => u.player == Player.computer)).length = 0 →
       (playerMultiAttack s attackerIds defenderId).turn = Phase.game_over ∧
       (playerMultiAttack s attackerIds defenderId).winner = some Player.player)
    ∧ (∀ w : Player, s.winner = some w →
        handleTileClick s setupUnitsLeft isProcessingAI hasAiPlan x y newId =
          (s, setupUnitsLeft)) := by
  refine ⟨?_, ?_, ?_⟩
  · intro h0
    dsimp only [playerMultiAttack, checkWinCondition] at h0 ⊢
    split_ifs at h0 ⊢ with hp hc
    · exact ⟨rfl, rfl⟩
    · exact absurd h0 hp
    · exact absurd h0 hp
  · intro hne h0
    dsimp only [playerMultiAttack, checkWinCondition] at hne h0 ⊢
    split_ifs at hne h0 ⊢ with hp hc
    · exact absurd hp hne
    · exact ⟨rfl, rfl⟩
    · exact absurd h0 hc
  · intro w hw
    dsimp only [handleTileClick]
    rw [if_pos (by simp [hw])]

end Skirmish
